import Mathlib

/-!
Shallow embedding of `src/main.rs` of the codecrafters-grep-rust repository:
a regular-expression parser (`Pattern::parse_either` / `parse_list` / `parse_one`)
and a backtracking matcher (`Pattern::matches`) together with the search driver
in `run`.

Modelling conventions:
* The input line is modelled as its character sequence (`List Char`); cursor
  positions and stored capture offsets are character indices.  The Rust code
  uses UTF-8 byte offsets from `char_indices`, which are produced and consumed
  only at character boundaries, so the two views are in order-preserving
  bijection; `i == 0` and end-of-line tests agree in both views.
* Rust's mutable cursor (`Peekable<CharIndices>`) becomes an explicit position
  threaded through results; a `clone`d checkpoint is simply a reused position.
* The matcher's `while` loop in the `OneOrMore` arm need not terminate (the
  inner pattern can succeed without consuming), so evaluation is indexed by
  fuel; `MRes.fuelOut` marks exhaustion.  Slice/index operations that would
  panic in Rust (`state[id]` out of bounds, `input.get(range).unwrap()`)
  return `MRes.panic`.
* `char::is_alphanumeric` is modelled by `Char.isAlphanum`.
-/

namespace Grep

/-- The pattern AST, mirroring `enum Pattern` in src/main.rs. -/
inductive Pattern where
  | literal (c : Char)
  | digit
  | alphanumeric
  | characterGroup (positive : Bool) (group : List Char)
  | startAnchor
  | endAnchor
  | oneOrMore (inner : Pattern)
  | zeroOrOne (inner : Pattern)
  | wildcard
  | list (items : List Pattern)
  | either (items : List Pattern)
  | reference (id : Nat)
  | captureGroup (id : Nat) (item : Pattern)
deriving Repr

/-- Models `*self == Pattern::EndAnchor` (the derived structural equality of a
pattern with the argumentless `EndAnchor` variant). -/
def isEndAnchor : Pattern → Bool
  | .endAnchor => true
  | _ => false

/-- The capture state: `state: &mut [Option<Range<usize>>]`, one entry per
capture group, holding a half-open span. -/
abbrev CapState := List (Option (Nat × Nat))

/-- Result of one matcher call: the returned boolean together with the final
cursor position and capture state (the Rust function mutates both in place);
`panic` models a Rust panic, `fuelOut` marks exhausted fuel. -/
inductive MRes where
  | ok (b : Bool) (pos : Nat) (st : CapState)
  | panic
  | fuelOut
deriving Repr, DecidableEq

/-- The `for exp_c in content.chars()` loop of the `Pattern::Reference` arm:
consume the expected characters one by one from the cursor; returns the
boolean result and the final cursor position. -/
def refMatch (input : List Char) : List Char → Nat → Bool × Nat
  | [], pos => (true, pos)
  | e :: rest, pos =>
    match input[pos]? with
    | some c => if e == c then refMatch input rest (pos + 1) else (false, pos + 1)
    | none => (false, pos)

/-- One unit of matcher work: `pat p` is a call of `Pattern::matches` on `p`;
`oom`, `seq` and `alt` are the interior loops of the `OneOrMore`, `List` and
`Either` arms respectively. -/
inductive Job where
  | pat (p : Pattern)
  | oom (inner : Pattern)
  | seq (items : List Pattern)
  | alt (items : List Pattern)

/-- Fuel-indexed evaluator for `Pattern::matches`.  Each recursive call burns
one unit of fuel, so the recursion is structural; the Rust code has no fuel
and instead diverges where every fuel value yields `fuelOut` here. -/
def mrun (input : List Char) : Nat → Job → Nat → CapState → MRes
  | 0, _, _, _ => .fuelOut
  | fuel + 1, .pat p, pos, st =>
    match input[pos]? with
    | none => .ok (isEndAnchor p) pos st
    | some c =>
      match p with
      | .literal expected => .ok (expected == c) (pos + 1) st
      | .digit => .ok c.isDigit (pos + 1) st
      | .alphanumeric => .ok c.isAlphanum (pos + 1) st
      | .characterGroup positive chars => .ok (Bool.xor (!positive) (chars.contains c)) (pos + 1) st
      | .startAnchor => .ok (pos == 0) pos st
      | .endAnchor => .ok false pos st
      | .oneOrMore inner =>
        match mrun input fuel (.pat inner) pos st with
        | .ok true pos' st' => mrun input fuel (.oom inner) pos' st'
        | .ok false pos' st' => .ok false pos' st'
        | r => r
      | .zeroOrOne inner =>
        match mrun input fuel (.pat inner) pos st with
        | .ok true pos' st' => .ok true pos' st'
        | .ok false _ st' => .ok true pos st'
        | r => r
      | .wildcard => .ok true (pos + 1) st
      | .list items => mrun input fuel (.seq items) pos st
      | .either items => mrun input fuel (.alt items) pos st
      | .reference id =>
        if h : id < st.length then
          match st[id] with
          | some (a, b) =>
            if a ≤ b ∧ b ≤ input.length then
              .ok (refMatch input ((input.take b).drop a) pos).1
                (refMatch input ((input.take b).drop a) pos).2 st
            else .panic
          | none => .ok false pos st
        else .panic
      | .captureGroup id item =>
        match mrun input fuel (.pat item) pos st with
        | .ok true pos' st' =>
          if id < st'.length then
            .ok true pos'
              (st'.set id (some (pos, if pos' < input.length then pos' else input.length)))
          else .panic
        | .ok false pos' st' => .ok false pos' st'
        | r => r
  | fuel + 1, .oom inner, pos, st =>
    match mrun input fuel (.pat inner) pos st with
    | .ok true pos' st' => mrun input fuel (.oom inner) pos' st'
    | .ok false _ st' => .ok true pos st'
    | r => r
  | fuel + 1, .seq items, pos, st =>
    match items with
    | [] => .ok true pos st
    | p :: rest =>
      match mrun input fuel (.pat p) pos st with
      | .ok true pos' st' => mrun input fuel (.seq rest) pos' st'
      | .ok false pos' st' => .ok false pos' st'
      | r => r
  | fuel + 1, .alt items, pos, st =>
    match items with
    | [] => .ok false pos st
    | p :: rest =>
      match mrun input fuel (.pat p) pos st with
      | .ok true pos' st' => .ok true pos' st'
      | .ok false _ st' => mrun input fuel (.alt rest) pos st'
      | r => r

/-- `Pattern::matches(&self, input, iter, state)`. -/
def matchesPat (fuel : Nat) (input : List Char) (p : Pattern) (pos : Nat) (st : CapState) : MRes :=
  mrun input fuel (.pat p) pos st

/-- The `while inner.matches(..) { *iter = tmp_iter.clone() }` loop of the
`OneOrMore` arm, entered after the first mandatory match of `inner`. -/
def oomLoop (fuel : Nat) (input : List Char) (inner : Pattern) (pos : Nat) (st : CapState) : MRes :=
  mrun input fuel (.oom inner) pos st

/-- `bitflags! EndFlags`: which closing tokens end the current parse context. -/
structure EndFlags where
  rparen : Bool
  pipe : Bool
deriving Repr, DecidableEq

/-- Result of a parser call: `Ok(Option<Pattern>)` with the remaining pattern
text and the updated `capture_group_count`, or a `SyntaxError` (`anyhow`
error, distinguished by message), or exhausted fuel. -/
inductive PRes where
  | ok (val : Option Pattern) (rest : List Char) (cnt : Nat)
  | err (msg : String)
  | fuelOut
deriving Repr

/-- The quantifier-suffix loop at the end of `parse_one`: each `+` or `?`
found by `iter.peek()` wraps the item parsed so far, in order seen. -/
def quantLoop : Pattern → List Char → Pattern × List Char
  | item, [] => (item, [])
  | item, c :: rest =>
    if c == '+' then quantLoop (.oneOrMore item) rest
    else if c == '?' then quantLoop (.zeroOrOne item) rest
    else (item, c :: rest)

/-- Wraps a parsed atom with its quantifier suffixes and returns it. -/
def finishAtom (item : Pattern) (rest : List Char) (cnt : Nat) : PRes :=
  .ok (some (quantLoop item rest).1) (quantLoop item rest).2 cnt

/-- The digit-accumulation loop of the backreference branch of `parse_one`:
`num: u32` with `num *= 10; num += d` for each peeked decimal digit.  The
arithmetic is unchecked `u32` arithmetic: each step wraps modulo `2 ^ 32`,
as in a release build of the program (a numeral of value `≥ 2 ^ 32` makes a
debug build panic on overflow instead). -/
def accDigits (num : Nat) : List Char → Nat × List Char
  | [] => (num, [])
  | c :: rest =>
    if c.isDigit then accDigits ((num * 10 + (c.toNat - '0'.toNat)) % 2 ^ 32) rest
    else (num, c :: rest)

/-- The character-collection loop of the `[` branch of `parse_one`: push
characters until `]`; `none` models running out of input (`expect` fails). -/
def readGroup (acc : List Char) : List Char → Option (List Char × List Char)
  | [] => none
  | c :: rest => if c == ']' then some (acc, rest) else readGroup (acc ++ [c]) rest

/-- The accumulator update of the `parse_list` loop: flatten into an existing
`Pattern::List`, pair up with a non-list, or start from the single item. -/
def appendItemList : Option Pattern → Pattern → Pattern
  | none, item => item
  | some (.list items), item => .list (items ++ [item])
  | some p, item => .list [p, item]

/-- The accumulator update of the `parse_either` loop, analogous to
`appendItemList` with `Pattern::Either`. -/
def appendItemEither : Option Pattern → Pattern → Pattern
  | none, item => item
  | some (.either items), item => .either (items ++ [item])
  | some p, item => .either [p, item]

/-- The `'\\'` branch of `parse_one` (src/main.rs lines 191-228): `d`, `w`, or
a decimal backreference id, which is rejected when zero, when not less than
the number of groups declared so far, or when equal to the id of the
immediately enclosing capture group (`parent_capture_group`). -/
def parseEscape (rest : List Char) (cnt : Nat) (parent : Option Nat) : PRes :=
  match rest with
  | [] => .err "expected a character, but ran out."
  | c2 :: rest2 =>
    if c2 == 'd' then finishAtom .digit rest2 cnt
    else if c2 == 'w' then finishAtom .alphanumeric rest2 cnt
    else if c2.isDigit then
      match accDigits (c2.toNat - '0'.toNat) rest2 with
      | (num, rest3) =>
        if num = 0 then .err "back reference id cannot be 0"
        else if num - 1 < cnt then
          match parent with
          | some par =>
            if par = num - 1 then .err "back reference to current capture group"
            else finishAtom (.reference (num - 1)) rest3 cnt
          | none => finishAtom (.reference (num - 1)) rest3 cnt
        else .err "back reference invalid"
    else .err "expected d, w or number"

/-- The `'['` branch of `parse_one` (src/main.rs lines 245-265): an optional
leading `^` negates the set; characters are collected until `]`. -/
def parseBracket (rest : List Char) (cnt : Nat) : PRes :=
  match rest with
  | [] => .err "expected a character, but ran out."
  | c2 :: rest2 =>
    match readGroup (if c2 == '^' then [] else [c2]) rest2 with
    | some (grp, rest3) => finishAtom (.characterGroup (!(c2 == '^')) grp) rest3 cnt
    | none => .err "expected a character, but ran out."

/-- One unit of parser work: a call of `parse_one`, or the interior loop of
`parse_list` / `parse_either` with its accumulated pattern. -/
inductive PJob where
  | pOne (parent : Option Nat)
  | pList (e : EndFlags) (parent : Option Nat) (acc : Option Pattern)
  | pEither (e : EndFlags) (parent : Option Nat) (acc : Option Pattern)

/-- Fuel-indexed evaluator for `Pattern::parse_either` / `parse_list` /
`parse_one`.  The pattern text is consumed from the front; `cnt` is the
`capture_group_count` threaded by mutable reference in Rust; `parent` is the
`parent_capture_group` argument. -/
def prun : Nat → PJob → List Char → Nat → PRes
  | 0, _, _, _ => .fuelOut
  | fuel + 1, .pOne parent, input, cnt =>
    match input with
    | [] => .ok none [] cnt
    | c :: rest =>
      if c == '\\' then parseEscape rest cnt parent
      else if c == '(' then
        match prun fuel (.pEither ⟨true, false⟩ (some cnt) none) rest (cnt + 1) with
        | .ok (some item) rest2 cnt2 =>
          match rest2 with
          | [] => .err "expected a character, but ran out."
          | c2 :: rest3 =>
            if c2 == ')' then finishAtom (.captureGroup cnt item) rest3 cnt2
            else .err "expected closing paren"
        | .ok none _ _ => .err "empty group is not allowed"
        | r => r
      else if c == '[' then parseBracket rest cnt
      else if c == '^' then finishAtom .startAnchor rest cnt
      else if c == '$' then finishAtom .endAnchor rest cnt
      else if c == '+' then .err "cannot use quantifier at the start of the pattern"
      else if c == '?' then .err "cannot use quantifier at the start of the pattern"
      else if c == '.' then finishAtom .wildcard rest cnt
      else finishAtom (.literal c) rest cnt
  | fuel + 1, .pList e parent acc, input, cnt =>
    match prun fuel (.pOne parent) input cnt with
    | .ok none rest cnt2 => .ok acc rest cnt2
    | .ok (some item) rest cnt2 =>
      match rest with
      | [] => prun fuel (.pList e parent (some (appendItemList acc item))) [] cnt2
      | c :: _ =>
        if (c == ')' && e.rparen) || (c == '|' && e.pipe) then
          .ok (some (appendItemList acc item)) rest cnt2
        else prun fuel (.pList e parent (some (appendItemList acc item))) rest cnt2
    | r => r
  | fuel + 1, .pEither e parent acc, input, cnt =>
    match prun fuel (.pList ⟨e.rparen, true⟩ parent none) input cnt with
    | .ok none rest cnt2 => .ok acc rest cnt2
    | .ok (some item) rest cnt2 =>
      match rest with
      | [] => prun fuel (.pEither e parent (some (appendItemEither acc item))) [] cnt2
      | c :: rest2 =>
        if c == '|' then prun fuel (.pEither e parent (some (appendItemEither acc item))) rest2 cnt2
        else .ok (some (appendItemEither acc item)) rest cnt2
    | r => r

/-- The top-level parse in `run`:
`Pattern::parse_either(&mut pattern.chars().peekable(), EndFlags::empty(), &mut 0, None)`. -/
def parseTop (fuel : Nat) (input : List Char) : PRes :=
  prun fuel (.pEither ⟨false, false⟩ none none) input 0

/-- Result of the search driver in `run`. -/
inductive SRes where
  | found (pos : Nat) (st : CapState)
  | nomatch
  | panic
  | fuelOut
deriving Repr, DecidableEq

/-- The search loop of `run` (src/main.rs lines 43-58).  Faithful detail: the
same `input_iter` is passed to every attempt, so a failed attempt resumes from
wherever that attempt left the cursor (`pos'`), then `input_iter.next()`
advances once more; each attempt gets a fresh all-`none` capture state. -/
def searchRun (input : List Char) (p : Pattern) (cnt : Nat) (mfuel : Nat) :
    Nat → Nat → SRes
  | 0, _ => .fuelOut
  | dfuel + 1, pos =>
    if pos < input.length then
      match matchesPat mfuel input p pos (List.replicate cnt none) with
      | .ok true pos' st' => .found pos' st'
      | .ok false pos' _ => searchRun input p cnt mfuel dfuel (pos' + 1)
      | .panic => .panic
      | .fuelOut => .fuelOut
    else .nomatch

mutual
/-- The capture-group ids declared in a pattern, collected in preorder (a
group's id before the ids of the groups nested in it, siblings left to
right) — i.e. in the left-to-right order of the groups' opening parentheses
in the pattern text. -/
def capIds : Pattern → List Nat
  | .oneOrMore p => capIds p
  | .zeroOrOne p => capIds p
  | .captureGroup id p => id :: capIds p
  | .list ps => capIdsList ps
  | .either ps => capIdsList ps
  | _ => []
/-- `capIds` over a list of sibling patterns. -/
def capIdsList : List Pattern → List Nat
  | [] => []
  | p :: ps => capIds p ++ capIdsList ps
end

mutual
/-- Every `captureGroup` node carries an id strictly smaller than every id
declared inside its child. -/
def nestedOk : Pattern → Bool
  | .oneOrMore p => nestedOk p
  | .zeroOrOne p => nestedOk p
  | .captureGroup id p => (capIds p).all (fun j => id < j) && nestedOk p
  | .list ps => nestedOkList ps
  | .either ps => nestedOkList ps
  | _ => true
/-- `nestedOk` over a list of sibling patterns. -/
def nestedOkList : List Pattern → Bool
  | [] => true
  | p :: ps => nestedOk p && nestedOkList ps
end

/-- Capture ids of an optional pattern (an empty list for `none`). -/
def optIds : Option Pattern → List Nat
  | none => []
  | some p => capIds p

/-- `nestedOk` of an optional pattern (`true` for `none`). -/
def optNested : Option Pattern → Bool
  | none => true
  | some p => nestedOk p

lemma capIdsList_append (xs ys : List Pattern) :
    capIdsList (xs ++ ys) = capIdsList xs ++ capIdsList ys := by
  induction xs with
  | nil => simp [capIdsList]
  | cons p ps ih => simp [capIdsList, ih]

lemma nestedOkList_append (xs ys : List Pattern) :
    nestedOkList (xs ++ ys) = (nestedOkList xs && nestedOkList ys) := by
  induction xs with
  | nil => simp [nestedOkList]
  | cons p ps ih => simp [nestedOkList, ih, Bool.and_assoc]

lemma ids_appendItemList (acc : Option Pattern) (item : Pattern) :
    capIds (appendItemList acc item) = optIds acc ++ capIds item := by
  cases acc with
  | none => simp [appendItemList, optIds]
  | some p =>
    cases p <;> simp [appendItemList, optIds, capIds, capIdsList, capIdsList_append]

lemma ids_appendItemEither (acc : Option Pattern) (item : Pattern) :
    capIds (appendItemEither acc item) = optIds acc ++ capIds item := by
  cases acc with
  | none => simp [appendItemEither, optIds]
  | some p =>
    cases p <;> simp [appendItemEither, optIds, capIds, capIdsList, capIdsList_append]

lemma nested_appendItemList (acc : Option Pattern) (item : Pattern) :
    nestedOk (appendItemList acc item) = (optNested acc && nestedOk item) := by
  cases acc with
  | none => simp [appendItemList, optNested]
  | some p =>
    cases p <;> simp [appendItemList, optNested, nestedOk, nestedOkList, nestedOkList_append]

lemma nested_appendItemEither (acc : Option Pattern) (item : Pattern) :
    nestedOk (appendItemEither acc item) = (optNested acc && nestedOk item) := by
  cases acc with
  | none => simp [appendItemEither, optNested]
  | some p =>
    cases p <;> simp [appendItemEither, optNested, nestedOk, nestedOkList, nestedOkList_append]

lemma quantLoop_capIds (l : List Char) : ∀ item : Pattern,
    capIds (quantLoop item l).1 = capIds item ∧
    nestedOk (quantLoop item l).1 = nestedOk item := by
  induction l with
  | nil => intro item; simp [quantLoop]
  | cons c rest ih =>
    intro item
    by_cases h1 : c == '+'
    · simpa [quantLoop, h1, capIds, nestedOk] using ih (.oneOrMore item)
    · by_cases h2 : c == '?'
      · simpa [quantLoop, h1, h2, capIds, nestedOk] using ih (.zeroOrOne item)
      · simp [quantLoop, h1, h2]

lemma finishAtom_ok {item : Pattern} {r : List Char} {c : Nat} {val : Option Pattern}
    {rest : List Char} {cnt2 : Nat} (h : finishAtom item r c = .ok val rest cnt2) :
    val = some (quantLoop item r).1 ∧ rest = (quantLoop item r).2 ∧ cnt2 = c := by
  unfold finishAtom at h
  injection h with h1 h2 h3
  exact ⟨h1.symm, h2.symm, h3.symm⟩

lemma atom_ids {item : Pattern} {r : List Char} {c : Nat} {val : Option Pattern}
    {rest : List Char} {cnt2 : Nat} (h : finishAtom item r c = .ok val rest cnt2)
    (hids : capIds item = []) (hnst : nestedOk item = true) :
    c ≤ cnt2 ∧ optIds val = List.range' c (cnt2 - c) ∧ optNested val = true := by
  obtain ⟨rfl, rfl, rfl⟩ := finishAtom_ok h
  refine ⟨le_refl _, ?_, ?_⟩
  · simp [optIds, (quantLoop_capIds r item).1, hids]
  · simp [optNested, (quantLoop_capIds r item).2, hnst]

lemma parseEscape_ids {rest : List Char} {cnt : Nat} {parent : Option Nat}
    {val : Option Pattern} {rest2 : List Char} {cnt2 : Nat}
    (h : parseEscape rest cnt parent = .ok val rest2 cnt2) :
    cnt ≤ cnt2 ∧ optIds val = List.range' cnt (cnt2 - cnt) ∧ optNested val = true := by
  unfold parseEscape at h
  repeat' split at h
  all_goals first
    | exact atom_ids h rfl rfl
    | simp at h

lemma parseBracket_ids {rest : List Char} {cnt : Nat}
    {val : Option Pattern} {rest2 : List Char} {cnt2 : Nat}
    (h : parseBracket rest cnt = .ok val rest2 cnt2) :
    cnt ≤ cnt2 ∧ optIds val = List.range' cnt (cnt2 - cnt) ∧ optNested val = true := by
  unfold parseBracket at h
  repeat' split at h
  all_goals first
    | exact atom_ids h rfl rfl
    | simp at h

lemma range'_glue {c0 cnt cnt1 : Nat} (h1 : c0 ≤ cnt) (h2 : cnt ≤ cnt1) :
    List.range' c0 (cnt - c0) ++ List.range' cnt (cnt1 - cnt) = List.range' c0 (cnt1 - c0) := by
  have hx := List.range'_append_1 c0 (cnt - c0) (cnt1 - cnt)
  rw [show c0 + (cnt - c0) = cnt by omega] at hx
  rw [show (cnt1 - cnt) + (cnt - c0) = cnt1 - c0 by omega] at hx
  exact hx

lemma range'_cons_head {cnt cnt1 : Nat} (h : cnt + 1 ≤ cnt1) :
    cnt :: List.range' (cnt + 1) (cnt1 - (cnt + 1)) = List.range' cnt (cnt1 - cnt) := by
  rw [show cnt1 - cnt = (cnt1 - (cnt + 1)) + 1 by omega, List.range'_succ]

lemma range'_all_lt (k s id : Nat) (h : id < s) :
    (List.range' s k).all (fun j => decide (id < j)) = true := by
  rw [List.all_eq_true]
  intro j hj
  obtain ⟨i, _, rfl⟩ := List.mem_range'.1 hj
  simp only [decide_eq_true_eq]
  omega

lemma oomLoop_true : ∀ (fuel : Nat) (input : List Char) (inner : Pattern) (pos : Nat)
    (st : CapState) (b : Bool) (pos' : Nat) (st' : CapState),
    oomLoop fuel input inner pos st = .ok b pos' st' → b = true := by
  intro fuel
  induction fuel with
  | zero => intro input inner pos st b pos' st' h; simp [oomLoop, mrun] at h
  | succ fuel ih =>
    intro input inner pos st b pos' st' h
    simp only [oomLoop, mrun] at h
    split at h
    · exact ih _ _ _ _ _ _ _ h
    · injection h with h1 h2 h3; exact h1.symm
    · rename_i x hne1 hne2
      cases b with
      | true => rfl
      | false => exact absurd h (hne2 _ _)

lemma refMatch_spec (input : List Char) : ∀ (content : List Char) (pos : Nat),
    ((refMatch input content pos).1 = true ↔ (input.drop pos).take content.length = content)
    ∧ ((refMatch input content pos).1 = true →
        (refMatch input content pos).2 = pos + content.length) := by
  intro content
  induction content with
  | nil => intro pos; simp [refMatch]
  | cons e rest ih =>
    intro pos
    by_cases hpos : pos < input.length
    · have hsome : input[pos]? = some input[pos] := List.getElem?_eq_getElem hpos
      have hdrop : input.drop pos = input[pos] :: input.drop (pos + 1) :=
        List.drop_eq_getElem_cons hpos
      by_cases hc : e == input[pos]
      · have hce : e = input[pos] := by simpa using hc
        rw [show refMatch input (e :: rest) pos = refMatch input rest (pos + 1) by
          simp [refMatch, hsome, hc]]
        constructor
        · rw [hdrop]
          simp only [List.length_cons, List.take_succ_cons]
          rw [(ih (pos + 1)).1]
          constructor
          · intro h; rw [h, hce]
          · intro h; exact ((List.cons.injEq ..).mp h).2
        · intro h
          rw [(ih (pos + 1)).2 h]
          simp only [List.length_cons]
          omega
      · have hne : e ≠ input[pos] := by simpa using hc
        rw [show refMatch input (e :: rest) pos = (false, pos + 1) by
          simp [refMatch, hsome, hc]]
        refine ⟨⟨fun h => Bool.noConfusion h, fun h => ?_⟩, fun h => Bool.noConfusion h⟩
        rw [hdrop] at h
        simp only [List.length_cons, List.take_succ_cons, List.cons.injEq] at h
        exact absurd h.1.symm hne
    · have hnone : input[pos]? = none := List.getElem?_eq_none (by omega)
      have hdrop : input.drop pos = [] := List.drop_eq_nil_of_le (by omega)
      rw [show refMatch input (e :: rest) pos = (false, pos) by simp [refMatch, hnone]]
      refine ⟨⟨fun h => Bool.noConfusion h, fun h => ?_⟩, fun h => Bool.noConfusion h⟩
      rw [hdrop] at h
      simp at h

/-- The postcondition of `prun_ids` for a given parser job: a successful
parse that moved the group counter from `cnt` to `cnt2` yields a pattern
whose preorder list of capture ids is exactly the interval of ids handed
out, continuing the accumulator's interval for the loop jobs; all nested
groups have larger ids than their enclosing group. -/
def IdsOut : PJob → Nat → Option Pattern → Nat → Prop
  | .pOne _, cnt, val, cnt2 =>
    cnt ≤ cnt2 ∧ optIds val = List.range' cnt (cnt2 - cnt) ∧ optNested val = true
  | .pList _ _ acc, cnt, val, cnt2 =>
    ∀ c0, c0 ≤ cnt → optIds acc = List.range' c0 (cnt - c0) → optNested acc = true →
      cnt ≤ cnt2 ∧ optIds val = List.range' c0 (cnt2 - c0) ∧ optNested val = true
  | .pEither _ _ acc, cnt, val, cnt2 =>
    ∀ c0, c0 ≤ cnt → optIds acc = List.range' c0 (cnt - c0) → optNested acc = true →
      cnt ≤ cnt2 ∧ optIds val = List.range' c0 (cnt2 - c0) ∧ optNested val = true

lemma prun_ids : ∀ (fuel : Nat) (job : PJob) (input : List Char) (cnt : Nat)
    (val : Option Pattern) (rest : List Char) (cnt2 : Nat),
    prun fuel job input cnt = .ok val rest cnt2 → IdsOut job cnt val cnt2 := by
  intro fuel
  induction fuel with
  | zero => intro job input cnt val rest cnt2 h; simp [prun] at h
  | succ fuel ih =>
    intro job input cnt val rest cnt2 h
    cases job with
    | pOne parent =>
      cases input with
      | nil =>
        simp only [prun, PRes.ok.injEq] at h
        obtain ⟨rfl, rfl, rfl⟩ := h
        exact ⟨le_refl _, by simp [optIds], by simp [optNested]⟩
      | cons c rest0 =>
        simp only [prun] at h
        split at h
        · exact parseEscape_ids h
        · split at h
          · -- the '(' branch
            split at h
            · rename_i item rest1 cnt1 hrec
              have hsub := ih _ _ _ _ _ _ hrec
              have hx := hsub (cnt + 1) (le_refl _) (by simp [optIds]) (by simp [optNested])
              obtain ⟨hle, hids, hnst⟩ := hx
              replace hids : capIds item = List.range' (cnt + 1) (cnt1 - (cnt + 1)) := hids
              replace hnst : nestedOk item = true := hnst
              split at h
              · simp at h
              · split at h
                · obtain ⟨rfl, rfl, rfl⟩ := finishAtom_ok h
                  refine ⟨by omega, ?_, ?_⟩
                  · show capIds (quantLoop (Pattern.captureGroup cnt item) _).1 = _
                    rw [(quantLoop_capIds _ _).1]
                    show cnt :: capIds item = _
                    rw [hids, range'_cons_head hle]
                  · show nestedOk (quantLoop (Pattern.captureGroup cnt item) _).1 = true
                    rw [(quantLoop_capIds _ _).2]
                    show ((capIds item).all (fun j => decide (cnt < j)) && nestedOk item) = true
                    rw [hnst, hids, range'_all_lt _ _ _ (by omega)]
                    rfl
                · simp at h
            · simp at h
            · rename_i x hne1 hne2
              cases val with
              | some p => exact absurd h (hne1 p rest cnt2)
              | none => exact absurd h (hne2 rest cnt2)
          · split at h
            · exact parseBracket_ids h
            · repeat' split at h
              all_goals first
                | exact atom_ids h rfl rfl
                | simp at h
    | pList e parent acc =>
      simp only [prun] at h
      split at h
      · -- parse_one returned Ok(None): loop ends, acc is returned
        rename_i rest1 cnt1 hrec
        have hone := ih _ _ _ _ _ _ hrec
        obtain ⟨hle, hids, -⟩ := hone
        replace hids : ([] : List Nat) = List.range' cnt (cnt1 - cnt) := hids
        have hcnt : cnt1 = cnt := by
          have h1 := hids.symm
          rw [List.range'_eq_nil] at h1
          omega
        injection h with h1 h2 h3
        subst h1; subst h3
        intro c0 hc0 hacc hnst
        subst hcnt
        exact ⟨le_refl _, hacc, hnst⟩
      · -- parse_one returned Ok(Some(item))
        rename_i item rest1 cnt1 hrec
        have hone := ih _ _ _ _ _ _ hrec
        obtain ⟨hle, hids, hnst⟩ := hone
        replace hids : capIds item = List.range' cnt (cnt1 - cnt) := hids
        replace hnst : nestedOk item = true := hnst
        intro c0 hc0 hacc hanst
        have hia : capIds (appendItemList acc item) = List.range' c0 (cnt1 - c0) := by
          rw [ids_appendItemList, hacc, hids, range'_glue hc0 hle]
        have hna : nestedOk (appendItemList acc item) = true := by
          rw [nested_appendItemList, hanst, hnst]; rfl
        split at h
        · -- rest1 = []: loop continues on empty input
          have hrest := ih _ _ _ _ _ _ h
          have hx := hrest c0 (by omega) hia hna
          exact ⟨by omega, hx.2.1, hx.2.2⟩
        · split at h
          · -- break on a closing token: the accumulated pattern is returned
            injection h with h1 h2 h3
            subst h1; subst h3
            exact ⟨by omega, hia, hna⟩
          · -- loop continues
            have hrest := ih _ _ _ _ _ _ h
            have hx := hrest c0 (by omega) hia hna
            exact ⟨by omega, hx.2.1, hx.2.2⟩
      · rename_i x hne1 hne2
        cases val with
        | none => exact absurd h (hne1 rest cnt2)
        | some p => exact absurd h (hne2 p rest cnt2)
    | pEither e parent acc =>
      simp only [prun] at h
      split at h
      · -- parse_list returned None
        rename_i rest1 cnt1 hrec
        have hone := ih _ _ _ _ _ _ hrec
        intro c0 hc0 hacc hnst
        have hx := hone cnt (le_refl _) (by simp [optIds]) (by simp [optNested])
        obtain ⟨hle, hids, -⟩ := hx
        replace hids : ([] : List Nat) = List.range' cnt (cnt1 - cnt) := hids
        have hcnt : cnt1 = cnt := by
          have h1 := hids.symm
          rw [List.range'_eq_nil] at h1
          omega
        injection h with h1 h2 h3
        subst h1; subst h3; subst hcnt
        exact ⟨le_refl _, hacc, hnst⟩
      · -- parse_list returned Some(item)
        rename_i item rest1 cnt1 hrec
        have hone := ih _ _ _ _ _ _ hrec
        intro c0 hc0 hacc hanst
        have hx := hone cnt (le_refl _) (by simp [optIds]) (by simp [optNested])
        obtain ⟨hle, hids, hnst⟩ := hx
        replace hids : capIds item = List.range' cnt (cnt1 - cnt) := hids
        replace hnst : nestedOk item = true := hnst
        have hia : capIds (appendItemEither acc item) = List.range' c0 (cnt1 - c0) := by
          rw [ids_appendItemEither, hacc, hids, range'_glue hc0 hle]
        have hna : nestedOk (appendItemEither acc item) = true := by
          rw [nested_appendItemEither, hanst, hnst]; rfl
        split at h
        · have hrest := ih _ _ _ _ _ _ h
          have hy := hrest c0 (by omega) hia hna
          exact ⟨by omega, hy.2.1, hy.2.2⟩
        · split at h
          · have hrest := ih _ _ _ _ _ _ h
            have hy := hrest c0 (by omega) hia hna
            exact ⟨by omega, hy.2.1, hy.2.2⟩
          · injection h with h1 h2 h3
            subst h1; subst h3
            exact ⟨by omega, hia, hna⟩
      · rename_i x hne1 hne2
        cases val with
        | none => exact absurd h (hne1 rest cnt2)
        | some p => exact absurd h (hne2 p rest cnt2)


/-- C1: the claim says the search driver attempts a match at every start
offset 0, 1, 2, ... below the line length, each with a cursor exactly at
that offset, and reports failure only after all of them were attempted.  The
code instead passes one shared iterator to every attempt, so after a failed
attempt it resumes from wherever that attempt left the cursor plus one:
searching for the pattern `a` in the line `xa` fails even though the
(fresh-cursor) attempt at offset 1 succeeds, because the failed attempt at
offset 0 consumed the character at offset 0 and the driver then skipped
offset 1. -/
theorem c1_search_driver_skips_offsets :
    searchRun ['x', 'a'] (.literal 'a') 0 20 20 0 = .nomatch ∧
    matchesPat 20 ['x', 'a'] (.literal 'a') 1 (List.replicate 0 none) = .ok true 2 [] :=
  ⟨rfl, rfl⟩

/-- C2: the claim says a literal-only pattern is found iff its text occurs as
a contiguous substring of the line.  The pattern `ab` parses to
`List [Literal a, Literal b]` and occurs in the line `xaby` at offset 1
(`drop 1` then `take 2` gives `ab`), yet the search reports no match,
because the shared-iterator driver never attempts offset 1. -/
theorem c2_literal_substring_missed :
    parseTop 100 ['a', 'b'] = .ok (some (.list [.literal 'a', .literal 'b'])) [] 0 ∧
    searchRun ['x', 'a', 'b', 'y'] (.list [.literal 'a', .literal 'b']) 0 30 30 0 = .nomatch ∧
    (['x', 'a', 'b', 'y'].drop 1).take 2 = ['a', 'b'] :=
  ⟨rfl, rfl, rfl⟩

/-- C3 counterexample: the claim says `ZeroOrOne` always returns true,
including when the cursor is at end of input; but with no character
remaining `matches` returns `self == EndAnchor` before dispatching, so
`ZeroOrOne(Literal a)` on exhausted input returns false. -/
theorem c3_zeroOrOne_end_of_input_counterexample :
    matchesPat 5 [] (.zeroOrOne (.literal 'a')) 0 [] = .ok false 0 [] := rfl

/-- C3 amended: when at least one character remains, `ZeroOrOne(child)`
attempts the child once on a checkpointed copy of the cursor, commits the
copy exactly when the child succeeded (keeping all capture-state changes
either way), and returns true; at end of input it returns false like every
non-EndAnchor node. -/
theorem c3_zeroOrOne_always_true_amended (fuel : Nat) (input : List Char) (inner : Pattern)
    (pos : Nat) (st : CapState) (b : Bool) (pos' : Nat) (st' : CapState)
    (hpos : pos < input.length)
    (hchild : matchesPat fuel input inner pos st = .ok b pos' st') :
    matchesPat (fuel + 1) input (.zeroOrOne inner) pos st
      = .ok true (if b then pos' else pos) st' := by
  have hsome : input[pos]? = some input[pos] := List.getElem?_eq_getElem hpos
  simp only [matchesPat] at hchild ⊢
  cases b <;> simp [mrun, hsome, hchild]

/-- Witness for C3: `b?` on the line `a` at offset 0 — the child fails, the
checkpoint is discarded, and the node returns true without consuming. -/
theorem c3_zeroOrOne_witness :
    matchesPat 2 ['a'] (.zeroOrOne (.literal 'b')) 0 [] = .ok true 0 [] := by
  have h := c3_zeroOrOne_always_true_amended 1 ['a'] (.literal 'b') 0 [] false 1 []
    (by decide) rfl
  simpa using h

/-- C4 counterexample: the claim says a backreference to any still-open outer
group is rejected; but the parser only rejects the immediately enclosing
group id, so `((\1a))` — where `\1` refers to group 0, which is still
open — parses successfully. -/
theorem c4_open_outer_group_backreference_accepted :
    parseTop 100 ['(', '(', '\\', '1', 'a', ')', ')']
      = .ok (some (.captureGroup 0
          (.captureGroup 1 (.list [.reference 0, .literal 'a'])))) [] 2 := rfl

/-- C4 amended: a backreference accumulates its decimal digits into a `u32`
with wrapping arithmetic (`accDigits`, release-build semantics) and the
wrapped value `num` is rejected exactly when it is zero, when the zero-based
id `num - 1` is not strictly less than the number of groups declared so far,
or when it equals the id of the immediately enclosing capture group (and
only that group, not every still-open outer group); in particular `\0` and a
self-reference like `(a\1)` fail with a SyntaxError and `\1` with no group
declared fails, while a numeral whose value is out of range as written can
wrap into range and be accepted: `(a)\4294967297` wraps `2 ^ 32 + 1` to `1`
and parses as a reference to group 0. -/
theorem c4_backreference_rejection_amended :
    (∀ (c2 : Char) (rest2 : List Char) (cnt : Nat) (parent : Option Nat) (num : Nat)
      (rest3 : List Char),
      c2.isDigit = true →
      accDigits (c2.toNat - '0'.toNat) rest2 = (num, rest3) →
      parseEscape (c2 :: rest2) cnt parent =
        if num = 0 then .err "back reference id cannot be 0"
        else if num - 1 < cnt then
          match parent with
          | some par =>
            if par = num - 1 then .err "back reference to current capture group"
            else finishAtom (.reference (num - 1)) rest3 cnt
          | none => finishAtom (.reference (num - 1)) rest3 cnt
        else .err "back reference invalid") ∧
    parseTop 100 ['\\', '0'] = .err "back reference id cannot be 0" ∧
    parseTop 100 ['(', 'a', '\\', '1', ')'] = .err "back reference to current capture group" ∧
    parseTop 100 ['\\', '1'] = .err "back reference invalid" ∧
    accDigits ('4'.toNat - '0'.toNat) ['2', '9', '4', '9', '6', '7', '2', '9', '7'] = (1, []) ∧
    parseTop 100 ['(', 'a', ')', '\\', '4', '2', '9', '4', '9', '6', '7', '2', '9', '7']
      = .ok (some (.list [.captureGroup 0 (.literal 'a'), .reference 0])) [] 1 := by
  refine ⟨?_, rfl, rfl, rfl, by decide, rfl⟩
  intro c2 rest2 cnt parent num rest3 hdig hacc
  have hd : (c2 == 'd') = false := by
    rw [beq_eq_false_iff_ne]
    intro hh; subst hh; exact absurd hdig (by decide)
  have hw : (c2 == 'w') = false := by
    rw [beq_eq_false_iff_ne]
    intro hh; subst hh; exact absurd hdig (by decide)
  simp only [parseEscape, hd, hw, hdig, Bool.false_eq_true, if_false, if_true]
  rw [hacc]

/-- Witness for C4: inside group 0 (one group declared), `\1` resolves to
zero-based id 0, which equals the enclosing group, so parsing rejects it. -/
theorem c4_backreference_witness :
    parseEscape ['1'] 1 (some 0) = .err "back reference to current capture group" :=
  (c4_backreference_rejection_amended.1 '1' [] 1 (some 0) 1 [] (by decide) rfl).trans rfl

/-- C5: capture state is not restored when a speculative branch is
discarded: the single alternation branch `(a)b` fails on the line `ax`
(the group `(a)` completes and records span 0..1, then `b` mismatches), yet
the overall failed match leaves `state[0] = Some(0..1)` — the capture array
after the failed attempt differs from the all-unset array before it. -/
theorem c5_capture_state_not_restored :
    matchesPat 10 ['a', 'x']
      (.either [.list [.captureGroup 0 (.literal 'a'), .literal 'b']]) 0 [none]
      = .ok false 0 [some (0, 1)] ∧
    (some (0, 1) : Option (Nat × Nat)) ≠ none :=
  ⟨rfl, by decide⟩

/-- C6 counterexample: the claim says `OneOrMore(child)` returns true iff the
first attempt of the child succeeds, for every cursor; but at end of input
the node returns false without attempting the child, even when the child is
`EndAnchor`, whose attempt would succeed. -/
theorem c6_oneOrMore_end_of_input_counterexample :
    matchesPat 5 [] (.oneOrMore .endAnchor) 0 [] = .ok false 0 [] ∧
    matchesPat 5 [] .endAnchor 0 [] = .ok true 0 [] :=
  ⟨rfl, rfl⟩

/-- C6 amended: when at least one character remains, `OneOrMore(child)` runs
the child once on the live cursor and fails exactly when that first attempt
fails; on success it enters the retry loop, which runs the child on a
checkpointed cursor, commits the new position after each success, and at the
first failure stops, returning true at the last committed position (keeping
the failed attempt's capture-state changes, never giving repetitions back);
any `ok` result of the loop carries `true`. -/
theorem c6_oneOrMore_amended (fuel : Nat) (input : List Char) (inner : Pattern) (pos : Nat)
    (st : CapState) (b : Bool) (pos1 : Nat) (st1 : CapState)
    (hpos : pos < input.length)
    (hchild : matchesPat fuel input inner pos st = .ok b pos1 st1) :
    (matchesPat (fuel + 1) input (.oneOrMore inner) pos st
      = if b then oomLoop fuel input inner pos1 st1 else .ok false pos1 st1) ∧
    (∀ (f p2 : Nat) (s2 : CapState) (b2 : Bool) (p3 : Nat) (s3 : CapState),
      oomLoop f input inner p2 s2 = .ok b2 p3 s3 → b2 = true) ∧
    (∀ (f p2 : Nat) (s2 : CapState),
      oomLoop (f + 1) input inner p2 s2 =
        match matchesPat f input inner p2 s2 with
        | .ok true p3 s3 => oomLoop f input inner p3 s3
        | .ok false _ s3 => .ok true p2 s3
        | r => r) := by
  refine ⟨?_, fun f p2 s2 b2 p3 s3 h => oomLoop_true f input inner p2 s2 b2 p3 s3 h,
    fun f p2 s2 => rfl⟩
  have hsome : input[pos]? = some input[pos] := List.getElem?_eq_getElem hpos
  simp only [matchesPat, oomLoop] at hchild ⊢
  cases b <;> simp [mrun, hsome, hchild]

/-- Witness for C6: `a+` on `aab` — the first attempt consumes the first
`a`, the loop commits one more `a`, then stops at `b`. -/
theorem c6_oneOrMore_witness :
    matchesPat 6 ['a', 'a', 'b'] (.oneOrMore (.literal 'a')) 0 []
      = oomLoop 5 ['a', 'a', 'b'] (.literal 'a') 1 [] ∧
    oomLoop 5 ['a', 'a', 'b'] (.literal 'a') 1 [] = .ok true 2 [] := by
  have h := c6_oneOrMore_amended 5 ['a', 'a', 'b'] (.literal 'a') 0 [] true 1 []
    (by decide) rfl
  exact ⟨by simpa using h.1, rfl⟩

/-- C7 counterexample: the claim says a backreference with a recorded span
succeeds exactly when the span's substring is consumed character by
character with no mismatch and no premature end of input, for every cursor;
with the empty span 0..0 recorded, the substring is empty and that
consumption succeeds vacuously, yet at end of input the matcher returns
false (the top-of-function exhaustion check fires before the Reference
arm). -/
theorem c7_backreference_end_of_input_counterexample :
    matchesPat 5 ['a'] (.reference 0) 1 [some (0, 0)] = .ok false 1 [some (0, 0)] ∧
    (List.take 0 ['a']).drop 0 = ([] : List Char) :=
  ⟨rfl, rfl⟩

/-- C7 amended: when at least one character remains at the cursor: a
`CaptureGroup` whose child succeeds records into `captureState[id]` the
half-open span from the entry offset to the new cursor offset (or the line
length if the cursor is exhausted); a `CaptureGroup` whose child fails
writes nothing itself and returns the child's resulting state (so
`captureState[id]` is unchanged whenever no group with the same id completes
inside the child); a `Backreference` with `captureState[id]` unset fails
consuming nothing; a `Backreference` with a recorded span runs the
character-by-character comparison `refMatch` of the span's substring, which
succeeds exactly when that substring occurs at the cursor (advancing past
it), and any mismatch or premature end of input fails.  With no character
remaining, both nodes fail like every non-EndAnchor node. -/
theorem c7_capture_backreference_amended (fuel : Nat) (input : List Char) (id : Nat)
    (item : Pattern) (pos : Nat) (st : CapState) (hpos : pos < input.length) :
    (∀ (pos' : Nat) (st' : CapState),
      matchesPat fuel input item pos st = .ok true pos' st' → id < st'.length →
      matchesPat (fuel + 1) input (.captureGroup id item) pos st
        = .ok true pos'
            (st'.set id (some (pos, if pos' < input.length then pos' else input.length)))) ∧
    (∀ (pos' : Nat) (st' : CapState),
      matchesPat fuel input item pos st = .ok false pos' st' →
      matchesPat (fuel + 1) input (.captureGroup id item) pos st = .ok false pos' st') ∧
    (∀ (h : id < st.length), st[id] = none →
      matchesPat (fuel + 1) input (.reference id) pos st = .ok false pos st) ∧
    (∀ (a b : Nat) (h : id < st.length), st[id] = some (a, b) → a ≤ b → b ≤ input.length →
      matchesPat (fuel + 1) input (.reference id) pos st
        = .ok (refMatch input ((input.take b).drop a) pos).1
            (refMatch input ((input.take b).drop a) pos).2 st) ∧
    (∀ (content : List Char) (pos2 : Nat),
      ((refMatch input content pos2).1 = true ↔
        (input.drop pos2).take content.length = content)
      ∧ ((refMatch input content pos2).1 = true →
          (refMatch input content pos2).2 = pos2 + content.length)) := by
  have hsome : input[pos]? = some input[pos] := List.getElem?_eq_getElem hpos
  refine ⟨?_, ?_, ?_, ?_, refMatch_spec input⟩
  · intro pos' st' hchild hlen
    simp only [matchesPat] at hchild ⊢
    simp [mrun, hsome, hchild, hlen]
  · intro pos' st' hchild
    simp only [matchesPat] at hchild ⊢
    simp [mrun, hsome, hchild]
  · intro h hnone
    simp only [matchesPat, mrun, hsome]
    rw [dif_pos h, hnone]
  · intro a b h hspan hab hbl
    simp only [matchesPat, mrun, hsome]
    rw [dif_pos h, hspan]
    simp [hab, hbl]

/-- Witness for C7: `(a)` on the line `a` — the group matches, the cursor is
exhausted, and span 0..1 (entry offset to line length) is recorded. -/
theorem c7_capture_backreference_witness :
    matchesPat 2 ['a'] (.captureGroup 0 (.literal 'a')) 0 [none]
      = .ok true 1 [some (0, 1)] := by
  have h := (c7_capture_backreference_amended 1 ['a'] 0 (.literal 'a') 0 [none]
    (by decide)).1 1 [none] rfl (by decide)
  simpa using h

/-- C8: consecutive quantifier suffixes wrap the previously parsed result in
order seen (the suffix loop folds `+`/`?` over the atom), `a+?` parses as
`ZeroOrOne(OneOrMore(Literal a))`, `a++` parses as nested `OneOrMore`, and a
leading `+` or `?` with no preceding atom is a SyntaxError. -/
theorem c8_quantifier_suffixes :
    (∀ (item : Pattern) (qs rest : List Char),
      (∀ q ∈ qs, q = '+' ∨ q = '?') →
      (∀ c, rest.head? = some c → c ≠ '+' ∧ c ≠ '?') →
      quantLoop item (qs ++ rest)
        = (qs.foldl (fun it q => if q = '+' then .oneOrMore it else .zeroOrOne it) item,
            rest)) ∧
    parseTop 100 ['a', '+', '?'] = .ok (some (.zeroOrOne (.oneOrMore (.literal 'a')))) [] 0 ∧
    parseTop 100 ['a', '+', '+'] = .ok (some (.oneOrMore (.oneOrMore (.literal 'a')))) [] 0 ∧
    parseTop 100 ['+', 'a'] = .err "cannot use quantifier at the start of the pattern" ∧
    parseTop 100 ['?'] = .err "cannot use quantifier at the start of the pattern" := by
  refine ⟨?_, rfl, rfl, rfl, rfl⟩
  intro item qs
  induction qs generalizing item with
  | nil =>
    intro rest hq hr
    cases rest with
    | nil => rfl
    | cons c rest2 =>
      obtain ⟨h1, h2⟩ := hr c rfl
      simp [quantLoop, List.foldl, h1, h2]
  | cons q qs2 ih =>
    intro rest hq hr
    rcases hq q (by simp) with hplus | hques
    · subst hplus
      rw [show ('+' :: qs2) ++ rest = '+' :: (qs2 ++ rest) from rfl]
      rw [show quantLoop item ('+' :: (qs2 ++ rest))
          = quantLoop (.oneOrMore item) (qs2 ++ rest) by simp [quantLoop]]
      rw [ih (.oneOrMore item) rest (fun x hx => hq x (by simp [hx])) hr]
      simp
    · subst hques
      rw [show ('?' :: qs2) ++ rest = '?' :: (qs2 ++ rest) from rfl]
      rw [show quantLoop item ('?' :: (qs2 ++ rest))
          = quantLoop (.zeroOrOne item) (qs2 ++ rest) by simp [quantLoop]]
      rw [ih (.zeroOrOne item) rest (fun x hx => hq x (by simp [hx])) hr]
      simp

/-- Witness for C8: the suffix run `+?` after the atom `b` wraps it first in
`OneOrMore`, then in `ZeroOrOne`. -/
theorem c8_quantifier_suffixes_witness :
    quantLoop (.literal 'b') (['+', '?'] ++ [])
      = (.zeroOrOne (.oneOrMore (.literal 'b')), []) := by
  have h := c8_quantifier_suffixes.1 (.literal 'b') ['+', '?'] [] (by decide)
    (by intro c hc; exact absurd hc (by simp))
  simpa using h

/-- C9: a successful top-level parse reporting `n` groups yields an AST whose
preorder list of capture ids (a group's id before its descendants, siblings
left to right — i.e. the left-to-right order of opening parentheses) is
exactly `0, 1, ..., n-1`; in particular the ids are dense and every
`CaptureGroup` node's id is strictly smaller than every id nested inside
it (`nestedOk`). -/
theorem c9_capture_ids_dense_preorder (fuel : Nat) (input : List Char) (p : Pattern)
    (rest : List Char) (n : Nat)
    (h : parseTop fuel input = .ok (some p) rest n) :
    capIds p = List.range n ∧ nestedOk p = true := by
  have hx := prun_ids fuel (.pEither ⟨false, false⟩ none none) input 0 (some p) rest n h
  have hy := hx 0 (Nat.zero_le 0) (by simp [optIds]) (by simp [optNested])
  obtain ⟨-, hids, hnst⟩ := hy
  replace hids : capIds p = List.range' 0 n := hids
  replace hnst : nestedOk p = true := hnst
  rw [List.range_eq_range']
  exact ⟨hids, hnst⟩

/-- Witness for C9: `((a)(b))` parses with 3 groups; the preorder ids are
`[0, 1, 2]` and nesting is monotone. -/
theorem c9_capture_ids_witness :
    capIds (.captureGroup 0
        (.list [.captureGroup 1 (.literal 'a'), .captureGroup 2 (.literal 'b')]))
      = List.range 3 ∧
    nestedOk (.captureGroup 0
        (.list [.captureGroup 1 (.literal 'a'), .captureGroup 2 (.literal 'b')]))
      = true :=
  c9_capture_ids_dense_preorder 100 ['(', '(', 'a', ')', '(', 'b', ')', ')'] _ [] 3 rfl

/-- C10: the claim says the matcher is total (always returns a boolean).  The
pattern `b?+` parses successfully, but matching it against the line `a`
runs the `OneOrMore` retry loop on a child that succeeds without consuming,
so the Rust `while` loop never exits: in the fuel-indexed model every fuel
value is exhausted. -/
theorem c10_matcher_divergence :
    parseTop 100 ['b', '?', '+'] = .ok (some (.oneOrMore (.zeroOrOne (.literal 'b')))) [] 0 ∧
    ∀ fuel : Nat,
      matchesPat fuel ['a'] (.oneOrMore (.zeroOrOne (.literal 'b'))) 0 [] = .fuelOut := by
  have hz : ∀ k : Nat,
      matchesPat (k + 2) ['a'] (.zeroOrOne (.literal 'b')) 0 [] = .ok true 0 [] :=
    fun _ => rfl
  have hoom : ∀ fuel : Nat, oomLoop fuel ['a'] (.zeroOrOne (.literal 'b')) 0 [] = .fuelOut := by
    intro fuel
    induction fuel with
    | zero => rfl
    | succ f ih =>
      cases f with
      | zero => rfl
      | succ f2 =>
        cases f2 with
        | zero => rfl
        | succ f3 =>
          have hunfold : oomLoop (f3 + 2 + 1) ['a'] (.zeroOrOne (.literal 'b')) 0 []
              = match matchesPat (f3 + 2) ['a'] (.zeroOrOne (.literal 'b')) 0 [] with
                | .ok true p3 s3 => oomLoop (f3 + 2) ['a'] (.zeroOrOne (.literal 'b')) p3 s3
                | .ok false _ s3 => .ok true 0 s3
                | r => r := rfl
          rw [hunfold, hz f3]
          exact ih
  refine ⟨rfl, ?_⟩
  intro fuel
  cases fuel with
  | zero => rfl
  | succ f =>
    cases f with
    | zero => rfl
    | succ f2 =>
      cases f2 with
      | zero => rfl
      | succ f3 =>
        have hstep : matchesPat (f3 + 3) ['a'] (.oneOrMore (.zeroOrOne (.literal 'b'))) 0 []
            = oomLoop (f3 + 2) ['a'] (.zeroOrOne (.literal 'b')) 0 [] := by
          have hbody : matchesPat (f3 + 3) ['a'] (.oneOrMore (.zeroOrOne (.literal 'b'))) 0 []
              = match matchesPat (f3 + 2) ['a'] (.zeroOrOne (.literal 'b')) 0 [] with
                | .ok true p s => oomLoop (f3 + 2) ['a'] (.zeroOrOne (.literal 'b')) p s
                | .ok false p s => .ok false p s
                | r => r := rfl
          rw [hbody, hz f3]
        rw [hstep]
        exact hoom (f3 + 2)


end Grep
